import Mathlib

/-!
Verification of the core algorithms of the `github_scraper` repository
(`src/github_scraper/scrape.py`): the comment-extraction line scanner
(`extract_comments_from_code`) and the bounded directory crawler
(`find_python_files_in_repo` / `explore_directory`).

The Python string operations used by the program are embedded as
executable functions over `String` (viewed as its list of characters),
with the same semantics as the corresponding Python methods:
`strip`, `rstrip`, `startswith`, `endswith`, `in` (substring test),
`count` (non-overlapping occurrence count), `split`, `lower`.
-/

/-- Python substring membership helper: does `pat` occur as a prefix of
some tail of `s`?  (`pat in s` in Python.) -/
def listInfix (pat : List Char) : List Char → Bool
  | [] => pat.isPrefixOf []
  | c :: rest => pat.isPrefixOf (c :: rest) || listInfix pat rest

/-- Python `sub in s` (substring containment). -/
def pyIn (sub s : String) : Bool := listInfix sub.data s.data

/-- Python `s.startswith(pre)`. -/
def pyStartsWith (s pre : String) : Bool := pre.data.isPrefixOf s.data

/-- Python `s.endswith(suf)`. -/
def pyEndsWith (s suf : String) : Bool := suf.data.isSuffixOf s.data

/-- Python `s.strip()` (strip leading and trailing whitespace). -/
def pyStrip (s : String) : String :=
  String.mk (((s.data.dropWhile Char.isWhitespace).reverse.dropWhile Char.isWhitespace).reverse)

/-- Python `s.rstrip()` (strip trailing whitespace). -/
def pyRStrip (s : String) : String :=
  String.mk ((s.data.reverse.dropWhile Char.isWhitespace).reverse)

/-- Python `s.lower()`. -/
def pyLower (s : String) : String := String.mk (s.data.map Char.toLower)

/-- Auxiliary scanner for `pyCount`: `skip` counts characters still to be
consumed by a previously matched occurrence, so that the count is of
non-overlapping occurrences, scanning left to right, as Python does. -/
def pyCountAux (pat : List Char) : Nat → List Char → Nat
  | _ + 1, [] => 0
  | k + 1, _ :: rest => pyCountAux pat k rest
  | 0, [] => 0
  | 0, c :: rest =>
    if pat ≠ [] ∧ pat.isPrefixOf (c :: rest) then
      pyCountAux pat (pat.length - 1) rest + 1
    else
      pyCountAux pat 0 rest

/-- Python `s.count(pat)` (number of non-overlapping occurrences). -/
def pyCount (pat s : String) : Nat := pyCountAux pat.data 0 s.data

/-- Auxiliary scanner for `pySplit`: `skip` counts characters of a
matched separator still to be consumed. -/
def pySplitAux (sep : List Char) : Nat → List Char → List Char → List (List Char)
  | _ + 1, acc, [] => [acc.reverse]
  | k + 1, acc, _ :: rest => pySplitAux sep k acc rest
  | 0, acc, [] => [acc.reverse]
  | 0, acc, c :: rest =>
    if sep ≠ [] ∧ sep.isPrefixOf (c :: rest) then
      acc.reverse :: pySplitAux sep (sep.length - 1) [] rest
    else
      pySplitAux sep 0 (c :: acc) rest

/-- Python `s.split(sep)` for a non-empty separator `sep`. -/
def pySplit (s sep : String) : List String :=
  (pySplitAux sep.data 0 [] s.data).map String.mk

/-! ## The comment extractor (`extract_comments_from_code`) -/

/-- The token `\x22\x22\x22` (triple double-quote). -/
def tripleDQ : String := "\"\"\""

/-- The single-quote character (code point 39). -/
def squote : Char := Char.ofNat 39

/-- The triple single-quote token. -/
def tripleSQ : String := String.mk [squote, squote, squote]

/-- The scan state of `extract_comments_from_code`: the mutable variables
`in_docstring` and `docstring_char` of the Python loop. -/
structure ScanState where
  in_docstring : Bool
  docstring_char : Option String
deriving DecidableEq, Repr

/-- One iteration of the `for i, line in enumerate(lines, 1)` loop body of
`extract_comments_from_code` (scrape.py lines 18-56): returns the updated
scan state and the emitted comment text, if any. -/
def processLine (st : ScanState) (line : String) : ScanState × Option String :=
  let stripped := pyStrip line
  if stripped = "" then
    (st, none)
  else if pyStartsWith stripped "#" then
    (st, some (pyRStrip line))
  else if pyIn tripleDQ line || pyIn tripleSQ line then
    let char := if pyIn tripleDQ line then tripleDQ else tripleSQ
    let count := pyCount char line
    if st.in_docstring = false then
      ({ in_docstring := if count = 2 then false else true, docstring_char := some char },
        some (pyRStrip line))
    else
      ({ st with in_docstring := if st.docstring_char = some char then false else st.in_docstring },
        some (pyRStrip line))
  else if st.in_docstring then
    (st, some (pyRStrip line))
  else
    (st, none)

/-- The scan loop of `extract_comments_from_code`, threading the state over
the enumerated lines and collecting the emitted `(line number, text)` pairs. -/
def scanLines : ScanState → List (Nat × String) → List (Nat × String)
  | _, [] => []
  | st, il :: rest =>
    match processLine st il.2 with
    | (st2, some t) => (il.1, t) :: scanLines st2 rest
    | (st2, none) => scanLines st2 rest

/-- `extract_comments_from_code` (scrape.py lines 11-58). -/
def extract_comments_from_code (code_text : String) : List (Nat × String) :=
  scanLines { in_docstring := false, docstring_char := none }
    (List.enumFrom 1 (pySplit code_text "\n"))

/-- The scan state after processing a given list of lines, starting from a
given state (used to speak about intermediate states of a scan). -/
def scanStateAfter (st : ScanState) (lines : List String) : ScanState :=
  lines.foldl (fun s l => (processLine s l).1) st

/-! ## The directory crawler (`find_python_files_in_repo` / `explore_directory`) -/

/-- A failure of a page navigation (`page.goto` raising inside the `try`
block of `explore_directory`). -/
inductive FetchError
  | fetchError
deriving DecidableEq, Repr

/-- The external page collaborator: listing the hyperlink `href`s observed
on a directory page, or failing. -/
def PageSource : Type := String → Except FetchError (List String)

/-- The mutable collections shared by all `explore_directory` frames
(`file_urls` and `visited_urls` of `find_python_files_in_repo`), together
with the ordered list of directory URLs for which a page fetch was
attempted (the `page.goto` calls, recorded for the revisit analysis). -/
structure CrawlState where
  file_urls : List (String × String)
  visited_urls : List String
  trace : List String
deriving DecidableEq, Repr

/-- `MAX_FILES_PER_REPO` (scrape.py line 8). -/
def MAX_FILES_PER_REPO : Nat := 5

/-- The result of the `for entry in entries` loop of one
`explore_directory` frame: the updated file map, the collected
subdirectories of this frame, and whether the loop executed the early
`return` taken when the quota is reached right after adding a file. -/
structure EntryScan where
  files : List (String × String)
  dirs : List String
  earlyReturn : Bool
deriving DecidableEq, Repr

/-- `skip_dirs` (scrape.py lines 133-134). -/
def skip_dirs : List String :=
  ["node_modules", ".git", "__pycache__", "venv", "env",
   "dist", "build", ".github", ".vscode", ".idea"]

/-- `dir_name` as computed in scrape.py lines 127-130: the portion of the
raw href after its last `/` (query string and fragment included), taken
after the last `/tree/`, lower-cased. -/
def dir_name_of (href : String) : String :=
  pyLower ((pySplit ((pySplit href "/tree/").getLastD "") "/").getLastD "")

/-- The denylist test of scrape.py line 135:
`any(skip in dir_name for skip in skip_dirs)`. -/
def is_skippable_dir (href : String) : Bool :=
  skip_dirs.any (fun sk => pyIn sk (dir_name_of href))

/-- Absolutization of an href (scrape.py lines 115 and 136):
`f"https://github.com{href}" if href.startswith('/') else href`. -/
def resolve_url (href : String) : String :=
  if pyStartsWith href "/" then "https://github.com" ++ href else href

/-- Query-string and fragment stripping (scrape.py lines 137-140), applied
only to directory URLs. -/
def strip_query_fragment (u : String) : String :=
  let u1 := if pyIn "?" u then (pySplit u "?").headD "" else u
  if pyIn "#" u1 then (pySplit u1 "#").headD "" else u1

/-- The conjunction of all the conditions under which the entry loop of
`explore_directory` records an href as a Python file (scrape.py lines
104-114): non-empty, a GitHub or site-relative URL, containing `/blob/`
and `.py`, and whose last `/`-separated component ends with `.py`. -/
def is_file_href (href : String) : Bool :=
  (href ≠ "" : Bool) && (pyIn "github.com" href || pyStartsWith href "/") &&
    (pyIn "/blob/" href && pyIn ".py" href) &&
    pyEndsWith ((pySplit href "/").getLastD "") ".py"

/-- The `for entry in entries` loop of `explore_directory` (scrape.py
lines 101-146), processing the hrefs in page order.  `Q` is the quota
(`MAX_FILES_PER_REPO`); `files` and `dirs` are the accumulators
`file_urls` and `directories`. -/
def processEntries (Q : Nat) :
    List (String × String) → List String → Nat → List String → EntryScan
  | files, dirs, _, [] => ⟨files, dirs, false⟩
  | files, dirs, depth, href :: rest =>
    if href = "" then
      processEntries Q files dirs depth rest
    else if !(pyIn "github.com" href || pyStartsWith href "/") then
      processEntries Q files dirs depth rest
    else if pyIn "/blob/" href && pyIn ".py" href then
      let file_name := (pySplit href "/").getLastD ""
      if pyEndsWith file_name ".py" then
        let file_url := resolve_url href
        if file_url ∈ files.map Prod.fst then
          processEntries Q files dirs depth rest
        else
          let files2 := files ++ [(file_url, file_name)]
          if Q ≤ files2.length then ⟨files2, dirs, true⟩
          else processEntries Q files2 dirs depth rest
      else
        processEntries Q files dirs depth rest
    else if pyIn "/tree/" href && decide (depth < 3) then
      let path_parts := pySplit href "/tree/"
      if 1 < path_parts.length then
        if is_skippable_dir href = false then
          let full_dir_url := strip_query_fragment (resolve_url href)
          if full_dir_url ∈ dirs then processEntries Q files dirs depth rest
          else processEntries Q files (dirs ++ [full_dir_url]) depth rest
        else
          processEntries Q files dirs depth rest
      else
        processEntries Q files dirs depth rest
    else
      processEntries Q files dirs depth rest

/-- The `for dir_url_sub in directories[:10]` loop of `explore_directory`
(scrape.py lines 153-156): explore each retained subdirectory in order,
breaking as soon as the quota is reached. -/
def foldDirs (Q : Nat) (step : CrawlState → String → CrawlState) :
    CrawlState → List String → CrawlState
  | s, [] => s
  | s, d :: rest =>
    if Q ≤ s.file_urls.length then s
    else foldDirs Q step (step s d) rest

/-- `explore_directory` (scrape.py lines 73-159).  The extra `fuel`
argument drives the structural recursion; since recursive calls happen
only from frames with `depth ≤ 3`, any `fuel` exceeding the remaining
depth budget (the top-level call uses 5) never reaches the `0` case. -/
def explore (ps : PageSource) (Q : Nat) : Nat → CrawlState → String → Nat → CrawlState
  | 0, s, _, _ => s
  | fuel + 1, s, dir_url, depth =>
    if Q ≤ s.file_urls.length then s
    else if 3 < depth then s
    else if dir_url ∈ s.visited_urls then s
    else
      let s1 : CrawlState :=
        { s with visited_urls := dir_url :: s.visited_urls, trace := s.trace ++ [dir_url] }
      match ps dir_url with
      | Except.error _ => s1
      | Except.ok entries =>
        let r := processEntries Q s1.file_urls [] depth entries
        let s2 : CrawlState := { s1 with file_urls := r.files }
        if r.earlyReturn then s2
        else if r.dirs ≠ [] ∧ s2.file_urls.length < Q then
          foldDirs Q (fun s3 d => explore ps Q fuel s3 d (depth + 1)) s2 (r.dirs.take 10)
        else s2

/-- One crawl: `explore_directory(repo_url)` starting from empty
collections at depth 0, generalized over the quota `Q`. -/
def crawl (ps : PageSource) (Q : Nat) (root_url : String) : CrawlState :=
  explore ps Q 5 { file_urls := [], visited_urls := [], trace := [] } root_url 0

/-- `find_python_files_in_repo` (scrape.py lines 61-170): the returned
`file_urls` mapping of a crawl with the fixed quota `MAX_FILES_PER_REPO`. -/
def find_python_files_in_repo (ps : PageSource) (repo_url : String) :
    List (String × String) :=
  (crawl ps MAX_FILES_PER_REPO repo_url).file_urls

/-! ## Auxiliary definitions for the statements -/

/-- The state invariant of the scanner claimed by the specification:
`insideBlock` implies a recorded delimiter, and no recorded delimiter
implies not inside a block. -/
def ScanInv (st : ScanState) : Prop :=
  (st.in_docstring = true → st.docstring_char ≠ none) ∧
  (st.docstring_char = none → st.in_docstring = false)

/-- The invariant relating the trace of attempted directory fetches to the
visited set: no directory is fetched twice, and every fetched directory
has been recorded as visited (it is recorded before the fetch). -/
def CrawlInv (s : CrawlState) : Prop :=
  s.trace.Nodup ∧ ∀ u ∈ s.trace, u ∈ s.visited_urls

/-- A line containing both block delimiter tokens (triple double-quote
followed by triple single-quote). -/
def mixedLine : String := "\"\"\" " ++ tripleSQ

/-- An input whose block is opened by the triple single-quote style and
whose second line contains both delimiter tokens. -/
def mixedInput : String := tripleSQ ++ "\n" ++ mixedLine ++ "\nx"

/-- A page source whose root directory lists one deceptive non-GitHub
file link and one file link carrying a query string that itself ends in
`.py`. -/
def psC5 : PageSource := fun url =>
  if url = "https://github.com/u/r" then
    Except.ok ["http://evil.com/blob/a.py", "/u/r/blob/m/a.py?f=b.py"]
  else Except.ok []

/-- A page source whose root directory lists a `__pycache__` subdirectory
link whose query string contains a `/`. -/
def psC6 : PageSource := fun url =>
  if url = "https://github.com/u/r" then
    Except.ok ["/u/r/tree/m/__pycache__?q=a/b"]
  else Except.ok []

/-- A page source with a cycle: the root lists a subdirectory that links
back to the root. -/
def psCyc : PageSource := fun url =>
  if url = "https://github.com/u/r" then
    Except.ok ["/u/r/tree/m/sub"]
  else if url = "https://github.com/u/r/tree/m/sub" then
    Except.ok ["/u/r/tree/m/sub", "https://github.com/u/r"]
  else Except.ok []

/-- A page source returning no entries for every directory. -/
def psEmpty : PageSource := fun _ => Except.ok []

/-- A page source failing on every directory fetch. -/
def psFail : PageSource := fun _ => Except.error FetchError.fetchError

/-! ## Helper lemmas -/

theorem processEntries_files_prefix (Q : Nat) :
    ∀ (entries : List String) (files : List (String × String)) (dirs : List String)
      (depth : Nat), ∃ t, (processEntries Q files dirs depth entries).files = files ++ t := by
  intro entries
  induction entries with
  | nil => intro files dirs depth; exact ⟨[], by simp [processEntries]⟩
  | cons href rest ih =>
    intro files dirs depth
    simp only [processEntries]
    split_ifs <;>
      first
        | exact ih _ _ _
        | exact ⟨[(resolve_url href, (pySplit href "/").getLastD "")], rfl⟩
        | (obtain ⟨t, ht⟩ :=
             ih (files ++ [(resolve_url href, (pySplit href "/").getLastD "")]) dirs depth
           exact ⟨(resolve_url href, (pySplit href "/").getLastD "") :: t, by simpa using ht⟩)

theorem processEntries_quota (Q : Nat) :
    ∀ (entries : List String) (files : List (String × String)) (dirs : List String)
      (depth : Nat), files.length < Q →
      (processEntries Q files dirs depth entries).files.length ≤ Q := by
  intro entries
  induction entries with
  | nil => intro files dirs depth h; simpa [processEntries] using Nat.le_of_lt h
  | cons href rest ih =>
    intro files dirs depth h
    simp only [processEntries]
    split_ifs with h1 h2 h3 h4 h5 h6 <;> try exact ih _ _ _ h
    · simpa using Nat.succ_le_of_lt h
    · exact ih _ _ _ (by simpa using Nat.lt_of_not_le h6)

theorem foldDirs_quota_le (Q : Nat) (step : CrawlState → String → CrawlState)
    (hstep : ∀ s d, s.file_urls.length ≤ Q → (step s d).file_urls.length ≤ Q) :
    ∀ (dirs : List String) (s : CrawlState), s.file_urls.length ≤ Q →
      (foldDirs Q step s dirs).file_urls.length ≤ Q := by
  intro dirs
  induction dirs with
  | nil => intro s h; simpa [foldDirs] using h
  | cons d rest ih =>
    intro s h
    simp only [foldDirs]
    split
    · exact h
    · exact ih _ (hstep s d h)

theorem explore_quota_le (ps : PageSource) (Q : Nat) :
    ∀ (fuel : Nat) (s : CrawlState) (url : String) (depth : Nat),
      s.file_urls.length ≤ Q →
      (explore ps Q fuel s url depth).file_urls.length ≤ Q := by
  intro fuel
  induction fuel with
  | zero => intro s url depth h; simpa [explore] using h
  | succ fuel ih =>
    intro s url depth h
    simp only [explore]
    split_ifs with hq hd hv
    · exact h
    · exact h
    · exact h
    · cases hps : ps url with
      | error e => simpa [hps] using h
      | ok entries =>
        simp only [hps]
        have hr := processEntries_quota Q entries s.file_urls [] depth (Nat.lt_of_not_le hq)
        split_ifs with he hrec
        · simpa using hr
        · exact foldDirs_quota_le Q _ (fun s3 d h3 => ih s3 d (depth + 1) h3) _ _ (by simpa using hr)
        · simpa using hr

theorem explore_stop (ps : PageSource) (Q : Nat) (fuel : Nat) (s : CrawlState)
    (url : String) (depth : Nat) (h : Q ≤ s.file_urls.length) :
    explore ps Q fuel s url depth = s := by
  cases fuel with
  | zero => simp [explore]
  | succ fuel => simp only [explore]; rw [if_pos h]

theorem processLine_inv (st : ScanState) (line : String) (h : ScanInv st) :
    ScanInv (processLine st line).1 := by
  obtain ⟨hA, hB⟩ := h
  have hfalse : ∀ (d : Option String),
      ScanInv { in_docstring := false, docstring_char := d } :=
    fun d => ⟨fun hc => by simp at hc, fun _ => rfl⟩
  have hsome : ∀ (b : Bool) (c : String),
      ScanInv { in_docstring := b, docstring_char := some c } :=
    fun b c => ⟨fun _ => by simp, fun hc => by simp at hc⟩
  simp only [processLine]
  split_ifs <;>
    first
      | exact ⟨hA, hB⟩
      | exact hsome _ _
      | exact hfalse _

theorem scanStateAfter_cons (st : ScanState) (l : String) (ls : List String) :
    scanStateAfter st (l :: ls) = scanStateAfter (processLine st l).1 ls := rfl

theorem scanStateAfter_inv :
    ∀ (lines : List String) (st : ScanState), ScanInv st →
      ScanInv (scanStateAfter st lines) := by
  intro lines
  induction lines with
  | nil => intro st h; simpa [scanStateAfter] using h
  | cons l ls ih =>
    intro st h
    rw [scanStateAfter_cons]
    exact ih _ (processLine_inv st l h)

theorem scanLines_fst_sublist :
    ∀ (ls : List (Nat × String)) (st : ScanState),
      ((scanLines st ls).map Prod.fst).Sublist (ls.map Prod.fst) := by
  intro ls
  induction ls with
  | nil => intro st; simp [scanLines]
  | cons il rest ih =>
    intro st
    simp only [scanLines]
    cases hp : processLine st il.2 with
    | mk st2 o =>
      cases o with
      | some t => simpa using (ih st2).cons₂ il.1
      | none => simpa using (ih st2).cons il.1

theorem mark_visited_inv (fu : List (String × String)) (s : CrawlState) (url : String)
    (hv : url ∉ s.visited_urls) (hI : CrawlInv s) :
    CrawlInv { file_urls := fu, visited_urls := url :: s.visited_urls, trace := s.trace ++ [url] } := by
  constructor
  · exact hI.1.append (List.nodup_singleton url)
      (List.disjoint_singleton.mpr fun hmem => hv (hI.2 url hmem))
  · intro u hu
    rcases List.mem_append.mp hu with hm | hm
    · exact List.mem_cons_of_mem _ (hI.2 u hm)
    · simp only [List.mem_singleton] at hm
      subst hm
      exact List.mem_cons_self _ _

theorem foldDirs_pres (Q : Nat) (step : CrawlState → String → CrawlState)
    (hstep : ∀ s d, (∀ u, u ∈ s.visited_urls → u ∈ (step s d).visited_urls) ∧
      (CrawlInv s → CrawlInv (step s d))) :
    ∀ (dirs : List String) (s : CrawlState),
      (∀ u, u ∈ s.visited_urls → u ∈ (foldDirs Q step s dirs).visited_urls) ∧
      (CrawlInv s → CrawlInv (foldDirs Q step s dirs)) := by
  intro dirs
  induction dirs with
  | nil => intro s; exact ⟨fun u hu => hu, fun hI => hI⟩
  | cons d rest ih =>
    intro s
    simp only [foldDirs]
    split
    · exact ⟨fun u hu => hu, fun hI => hI⟩
    · exact ⟨fun u hu => (ih (step s d)).1 u ((hstep s d).1 u hu),
        fun hI => (ih (step s d)).2 ((hstep s d).2 hI)⟩

theorem explore_pres (ps : PageSource) (Q : Nat) :
    ∀ (fuel : Nat) (s : CrawlState) (url : String) (depth : Nat),
      (∀ u, u ∈ s.visited_urls → u ∈ (explore ps Q fuel s url depth).visited_urls) ∧
      (CrawlInv s → CrawlInv (explore ps Q fuel s url depth)) := by
  intro fuel
  induction fuel with
  | zero => intro s url depth; exact ⟨fun u hu => hu, fun hI => hI⟩
  | succ fuel ih =>
    intro s url depth
    simp only [explore]
    split_ifs with hq hd hv
    · exact ⟨fun u hu => hu, fun hI => hI⟩
    · exact ⟨fun u hu => hu, fun hI => hI⟩
    · exact ⟨fun u hu => hu, fun hI => hI⟩
    · cases hps : ps url with
      | error e =>
        simp only [hps]
        exact ⟨fun u hu => List.mem_cons_of_mem _ hu,
          fun hI => mark_visited_inv _ s url hv hI⟩
      | ok entries =>
        simp only [hps]
        split_ifs with he hrec
        · exact ⟨fun u hu => List.mem_cons_of_mem _ hu,
            fun hI => mark_visited_inv _ s url hv hI⟩
        · have hstep : ∀ (s3 : CrawlState) (d : String),
              (∀ u, u ∈ s3.visited_urls →
                u ∈ (explore ps Q fuel s3 d (depth + 1)).visited_urls) ∧
              (CrawlInv s3 → CrawlInv (explore ps Q fuel s3 d (depth + 1))) :=
            fun s3 d => ih s3 d (depth + 1)
          have hfold := foldDirs_pres Q (fun s3 d => explore ps Q fuel s3 d (depth + 1))
            hstep
            (List.take 10 (processEntries Q s.file_urls [] depth entries).dirs)
            { file_urls := (processEntries Q s.file_urls [] depth entries).files,
              visited_urls := url :: s.visited_urls, trace := s.trace ++ [url] }
          exact ⟨fun u hu => hfold.1 u (List.mem_cons_of_mem _ hu),
            fun hI => hfold.2 (mark_visited_inv _ s url hv hI)⟩
        · exact ⟨fun u hu => List.mem_cons_of_mem _ hu,
            fun hI => mark_visited_inv _ s url hv hI⟩

/-! ## The claims -/

/-- C1 counterexample: on the input whose line 1 opens a triple-quoted
block and whose line 2 is blank while the block is still open, the blank
line 2 is not emitted (the output's line numbers are 1, 3 and 4 only),
even though the state after line 1 is inside an open block.  This refutes
the claim that every line inside an open block, including blank lines, is
emitted. -/
theorem C1_counterexample :
    extract_comments_from_code "\"\"\"\n\nx\n\"\"\"" =
      [(1, "\"\"\""), (3, "x"), (4, "\"\"\"")] ∧
    (extract_comments_from_code "\"\"\"\n\nx\n\"\"\"").all (fun p => p.1 ≠ 2) = true ∧
    (scanStateAfter { in_docstring := false, docstring_char := none }
      ((pySplit "\"\"\"\n\nx\n\"\"\"" "\n").take 1)).in_docstring = true := by
  decide

/-- C1 (amended): a blank line is always skipped — emitted in no state and
never changing the state, even inside an open block — while every
non-blank line encountered inside an open block is emitted as a comment
line. -/
theorem C1_blank_and_block_lines (st : ScanState) (line : String) :
    (pyStrip line = "" → processLine st line = (st, none)) ∧
    (st.in_docstring = true → pyStrip line ≠ "" →
      (processLine st line).2 = some (pyRStrip line)) := by
  constructor
  · intro h
    simp [processLine, h]
  · intro hin hne
    simp only [processLine]
    split_ifs <;> simp_all

/-- C1 witness: the amended statement applied to a blank line in the
initial state and to a non-blank line inside an open block. -/
theorem C1_blank_and_block_lines_witness :
    processLine { in_docstring := false, docstring_char := none } " " =
      ({ in_docstring := false, docstring_char := none }, none) ∧
    (processLine { in_docstring := true, docstring_char := some tripleDQ } "abc").2 =
      some (pyRStrip "abc") :=
  ⟨(C1_blank_and_block_lines { in_docstring := false, docstring_char := none } " ").1
      (by decide),
   (C1_blank_and_block_lines { in_docstring := true, docstring_char := some tripleDQ } "abc").2
      rfl (by decide)⟩

/-- C2 counterexample: with a triple-single-quote block open, a line
containing both the active triple-single-quote token and a
triple-double-quote token does not close the block (the scanner selects
the double-quote style first and compares it with the stored delimiter),
so the block stays open; accordingly, in a full scan the line following
such a line is still emitted.  This refutes the claim that any line
inside a block containing the active delimiter closes it. -/
theorem C2_counterexample :
    (processLine { in_docstring := true, docstring_char := some tripleSQ }
        mixedLine).1.in_docstring = true ∧
    pyIn tripleSQ mixedLine = true ∧
    (extract_comments_from_code mixedInput).contains (3, "x") = true := by
  decide

/-- C2 (amended): while inside a block with active delimiter `d`, for a
non-blank line that does not begin (after stripping) with `#`: if the
line contains a delimiter token, the scanner selects the triple
double-quote style when present and the triple single-quote style
otherwise, and the block closes exactly when the selected token equals
`d` — by mere presence, regardless of the occurrence count; a line
containing no delimiter token leaves the block open.  A token of the
other style alone therefore causes no state change, but it also masks a
close when it accompanies an active triple-single-quote delimiter. -/
theorem C2_close_semantics (st : ScanState) (line : String)
    (hin : st.in_docstring = true)
    (hblank : pyStrip line ≠ "")
    (hhash : pyStartsWith (pyStrip line) "#" = false) :
    (processLine st line).1.in_docstring =
      if pyIn tripleDQ line || pyIn tripleSQ line then
        (if st.docstring_char = some (if pyIn tripleDQ line then tripleDQ else tripleSQ)
          then false else true)
      else true := by
  simp only [processLine]
  split_ifs with h1 h2 h3 h4 h5 h6 <;> simp_all

/-- C2 witness: the amended statement applied to an open
triple-single-quote block and a line containing only the (other style)
triple-double-quote token: the state remains inside the block. -/
theorem C2_close_semantics_witness :
    (processLine { in_docstring := true, docstring_char := some tripleSQ }
        "x \"\"\"").1.in_docstring =
      if pyIn tripleDQ "x \"\"\"" || pyIn tripleSQ "x \"\"\"" then
        (if (some tripleSQ : Option String) =
            some (if pyIn tripleDQ "x \"\"\"" then tripleDQ else tripleSQ)
          then false else true)
      else true :=
  C2_close_semantics { in_docstring := true, docstring_char := some tripleSQ }
    "x \"\"\"" rfl (by decide) (by decide)

/-- C8: the multi-line block scenario: the scan of
`'\x22\x22\x22\nline a\nline b\n\x22\x22\x22\ncode\n'` produces exactly
the four expected comment lines, the state is back to Code after line 4,
and line 5 is not emitted. -/
theorem C8_multiline_scenario :
    extract_comments_from_code "\"\"\"\nline a\nline b\n\"\"\"\ncode\n" =
      [(1, "\"\"\""), (2, "line a"), (3, "line b"), (4, "\"\"\"")] ∧
    (scanStateAfter { in_docstring := false, docstring_char := none }
      ((pySplit "\"\"\"\nline a\nline b\n\"\"\"\ncode\n" "\n").take 4)).in_docstring = false ∧
    (extract_comments_from_code "\"\"\"\nline a\nline b\n\"\"\"\ncode\n").all
      (fun p => p.1 ≠ 5) = true := by
  decide

/-- C9: after processing any prefix of the lines of any input, the scan
state satisfies the invariant: `in_docstring` implies a recorded
delimiter, and no recorded delimiter implies not inside a block. -/
theorem C9_scan_invariant (code_text : String) (n : Nat) :
    ScanInv (scanStateAfter { in_docstring := false, docstring_char := none }
      ((pySplit code_text "\n").take n)) :=
  scanStateAfter_inv _ _ ⟨fun hc => by simp at hc, fun _ => rfl⟩

/-- C9 witness: the invariant at a concrete input and prefix length. -/
theorem C9_scan_invariant_witness :
    ScanInv (scanStateAfter { in_docstring := false, docstring_char := none }
      ((pySplit "\"\"\"\nx" "\n").take 1)) :=
  C9_scan_invariant "\"\"\"\nx" 1

/-- C10: the line numbers in the extractor's output are strictly
increasing, and each lies between 1 and the number of lines obtained by
splitting the input on the newline character. -/
theorem C10_line_numbers (code_text : String) :
    List.Chain' (· < ·) ((extract_comments_from_code code_text).map Prod.fst) ∧
    ∀ p ∈ extract_comments_from_code code_text,
      1 ≤ p.1 ∧ p.1 ≤ (pySplit code_text "\n").length := by
  have hsub :
      ((extract_comments_from_code code_text).map Prod.fst).Sublist
        (List.range' 1 (pySplit code_text "\n").length) := by
    have h := scanLines_fst_sublist (List.enumFrom 1 (pySplit code_text "\n"))
      { in_docstring := false, docstring_char := none }
    rwa [List.enumFrom_map_fst] at h
  constructor
  · exact List.chain'_iff_pairwise.mpr
      (List.pairwise_lt_range' 1 _ 1 (by decide) |>.sublist hsub)
  · intro p hp
    have hmem : p.1 ∈ List.range' 1 (pySplit code_text "\n").length :=
      hsub.subset (List.mem_map_of_mem Prod.fst hp)
    have := List.mem_range'_1.mp hmem
    omega

/-- C10 witness: the bound applied to a concrete input and a concrete
member of its output. -/
theorem C10_line_numbers_witness :
    List.Chain' (· < ·)
      ((extract_comments_from_code "x = 1\n# hello\ny = 2\n").map Prod.fst) ∧
    (1 ≤ 2 ∧ 2 ≤ (pySplit "x = 1\n# hello\ny = 2\n" "\n").length) :=
  ⟨(C10_line_numbers "x = 1\n# hello\ny = 2\n").1,
   (C10_line_numbers "x = 1\n# hello\ny = 2\n").2 (2, "# hello") (by decide)⟩

/-- C3: for every page source, quota `Q` and root, the crawl returns at
most `Q` discovered files; any state already holding at most `Q` files
still holds at most `Q` after any frame; and a frame entered with the
quota reached returns its state unchanged — in particular it issues no
directory fetch (the trace is untouched). -/
theorem C3_quota_bound (ps : PageSource) (Q : Nat) (root : String) :
    (crawl ps Q root).file_urls.length ≤ Q ∧
    (∀ (fuel : Nat) (s : CrawlState) (url : String) (depth : Nat),
      s.file_urls.length ≤ Q →
      (explore ps Q fuel s url depth).file_urls.length ≤ Q) ∧
    (∀ (fuel : Nat) (s : CrawlState) (url : String) (depth : Nat),
      Q ≤ s.file_urls.length → explore ps Q fuel s url depth = s) :=
  ⟨explore_quota_le ps Q 5 { file_urls := [], visited_urls := [], trace := [] }
      root 0 (Nat.zero_le Q),
   fun fuel s url depth h => explore_quota_le ps Q fuel s url depth h,
   fun fuel s url depth h => explore_stop ps Q fuel s url depth h⟩

/-- C3 witness: the bound at a concrete page source and quota, and a
concrete full state left unchanged by a frame. -/
theorem C3_quota_bound_witness :
    (crawl psEmpty 2 "r").file_urls.length ≤ 2 ∧
    (explore psEmpty 2 5 { file_urls := [("a", "a")], visited_urls := [], trace := [] }
      "u" 0).file_urls.length ≤ 2 ∧
    explore psEmpty 2 5
        { file_urls := [("a", "a"), ("b", "b")], visited_urls := [], trace := [] } "u" 0 =
      { file_urls := [("a", "a"), ("b", "b")], visited_urls := [], trace := [] } :=
  ⟨(C3_quota_bound psEmpty 2 "r").1,
   (C3_quota_bound psEmpty 2 "r").2.1 5
     { file_urls := [("a", "a")], visited_urls := [], trace := [] } "u" 0 (by decide),
   (C3_quota_bound psEmpty 2 "r").2.2 5
     { file_urls := [("a", "a"), ("b", "b")], visited_urls := [], trace := [] } "u" 0
     (by decide)⟩

/-- C4: within one crawl the directory fetches are pairwise distinct
(each directory identifier is fetched at most once, cycles included),
every fetched identifier is in the final visited set (it is added before
the fetch), and the visited set only grows across any frame. -/
theorem C4_no_revisits (ps : PageSource) (Q : Nat) (root : String) :
    (crawl ps Q root).trace.Nodup ∧
    (∀ u ∈ (crawl ps Q root).trace, u ∈ (crawl ps Q root).visited_urls) ∧
    (∀ (fuel : Nat) (s : CrawlState) (url : String) (depth : Nat),
      s.visited_urls ⊆ (explore ps Q fuel s url depth).visited_urls) := by
  have hI : CrawlInv (crawl ps Q root) :=
    (explore_pres ps Q 5 { file_urls := [], visited_urls := [], trace := [] } root 0).2
      ⟨List.nodup_nil, by simp⟩
  exact ⟨hI.1, hI.2,
    fun fuel s url depth u hu => (explore_pres ps Q fuel s url depth).1 u hu⟩

/-- C4 witness: the statement at a concrete cyclic page source (the
subdirectory links back to the root). -/
theorem C4_no_revisits_witness :
    (crawl psCyc 5 "https://github.com/u/r").trace.Nodup ∧
    (∀ u ∈ (crawl psCyc 5 "https://github.com/u/r").trace,
      u ∈ (crawl psCyc 5 "https://github.com/u/r").visited_urls) ∧
    ["v"] ⊆ (explore psCyc 5 5 { file_urls := [], visited_urls := ["v"], trace := [] }
      "u" 0).visited_urls :=
  ⟨(C4_no_revisits psCyc 5 "https://github.com/u/r").1,
   (C4_no_revisits psCyc 5 "https://github.com/u/r").2.1,
   (C4_no_revisits psCyc 5 "https://github.com/u/r").2.2 5
     { file_urls := [], visited_urls := ["v"], trace := [] } "u" 0⟩

/-- C5 counterexample: on a root listing the href
`http://evil.com/blob/a.py` — which contains the `/blob/` marker and
whose terminal segment ends with `.py`, yet is not stored because it is
neither a GitHub URL nor site-relative — and the href
`/u/r/blob/m/a.py?f=b.py`, the crawl stores exactly the latter, as the
absolute URL with its query string retained (the stored identifier
contains a `?`).  This refutes both the claimed iff-characterization and
the claimed query/fragment stripping of stored file identifiers. -/
theorem C5_counterexample :
    (crawl psC5 5 "https://github.com/u/r").file_urls =
      [("https://github.com/u/r/blob/m/a.py?f=b.py", "a.py?f=b.py")] ∧
    pyIn "?" "https://github.com/u/r/blob/m/a.py?f=b.py" = true ∧
    pyIn "/blob/" "http://evil.com/blob/a.py" = true ∧
    pyEndsWith ((pySplit "http://evil.com/blob/a.py" "/").getLastD "") ".py" = true := by
  decide

/-- C5 (amended): a single observed href is stored as a file exactly when
it is non-empty, contains `github.com` or starts with `/`, contains the
`/blob/` marker (and `.py`), and its final `/`-separated component ends
with `.py`; the stored identifier is the href made absolute (prefixed
with the site origin when site-relative) with no query or fragment
stripping. -/
theorem C5_file_classification (Q : Nat) (depth : Nat) (href : String) :
    (processEntries Q [] [] depth [href]).files =
      if is_file_href href then
        [(resolve_url href, (pySplit href "/").getLastD "")]
      else [] := by
  simp only [processEntries, is_file_href]
  split_ifs <;> simp_all [processEntries]

/-- C6 counterexample: the href `/u/r/tree/m/__pycache__?q=a/b` names a
`__pycache__` subdirectory, but its query string contains a `/`, so the
denylist test — applied to the portion of the raw href after its last
`/` — sees only `b` and lets it pass; the crawl then fetches the
directory URL `https://github.com/u/r/tree/m/__pycache__`, whose last
path segment is exactly `__pycache__`.  This refutes the claim that a
denylisted directory is never recursed into. -/
theorem C6_counterexample :
    "https://github.com/u/r/tree/m/__pycache__" ∈
      (crawl psC6 5 "https://github.com/u/r").trace ∧
    (pySplit "https://github.com/u/r/tree/m/__pycache__" "/").getLastD "" =
      "__pycache__" ∧
    is_skippable_dir "/u/r/tree/m/__pycache__?q=a/b" = false := by
  decide

/-- C6 (amended): every subdirectory URL that the entry loop enqueues for
recursion comes from an observed href that passed the denylist filter,
where the filter tests whether the lower-cased portion of the raw href
after its last `/` — computed before query/fragment stripping — contains
a denylisted name; a denylisted directory name can therefore still be
fetched when a query string containing `/` (or a trailing slash) hides it
from that final component. -/
theorem C6_filter_semantics (Q : Nat) :
    ∀ (entries : List String) (files : List (String × String)) (dirs : List String)
      (depth : Nat) (d : String),
      d ∈ (processEntries Q files dirs depth entries).dirs →
      d ∈ dirs ∨ ∃ href, href ∈ entries ∧ is_skippable_dir href = false ∧
        d = strip_query_fragment (resolve_url href) := by
  intro entries
  induction entries with
  | nil =>
    intro files dirs depth d hd
    exact Or.inl (by simpa [processEntries] using hd)
  | cons href rest ih =>
    intro files dirs depth d hd
    simp only [processEntries] at hd
    split_ifs at hd <;>
      first
        | exact Or.inl hd
        | (rcases ih _ _ _ _ hd with h | ⟨hr, hmem, hskip, heq⟩
           · exact Or.inl h
           · exact Or.inr ⟨hr, List.mem_cons_of_mem _ hmem, hskip, heq⟩)
        | (rcases ih _ _ _ _ hd with h | ⟨hr, hmem, hskip, heq⟩
           · rcases List.mem_append.mp h with h | h
             · exact Or.inl h
             · simp only [List.mem_singleton] at h
               exact Or.inr ⟨href, List.mem_cons_self _ _, by assumption, h⟩
           · exact Or.inr ⟨hr, List.mem_cons_of_mem _ hmem, hskip, heq⟩)

/-- C6 witness: the amended statement applied to a single admissible
subdirectory href. -/
theorem C6_filter_semantics_witness :
    "https://github.com/u/r/tree/m/sub" ∈ ([] : List String) ∨
    ∃ href, href ∈ ["/u/r/tree/m/sub"] ∧ is_skippable_dir href = false ∧
      "https://github.com/u/r/tree/m/sub" = strip_query_fragment (resolve_url href) :=
  C6_filter_semantics 5 ["/u/r/tree/m/sub"] [] [] 0
    "https://github.com/u/r/tree/m/sub" (by decide)

/-- C7: when listing a directory's entries fails, the frame changes no
discovered files — whatever the guards — and, when the frame actually
runs (quota not reached, depth in range, not yet visited), it returns
normally with only the bookkeeping updates (the directory marked visited
and the attempted fetch recorded); the failure is not propagated: the
crawl is a total function of its inputs, and sibling frames then proceed
from this returned state. -/
theorem C7_fetch_error_isolated (ps : PageSource) (Q : Nat) (fuel : Nat)
    (s : CrawlState) (url : String) (depth : Nat) (e : FetchError)
    (herr : ps url = Except.error e) :
    (explore ps Q (fuel + 1) s url depth).file_urls = s.file_urls ∧
    (¬ Q ≤ s.file_urls.length → ¬ 3 < depth → url ∉ s.visited_urls →
      explore ps Q (fuel + 1) s url depth =
        { file_urls := s.file_urls, visited_urls := url :: s.visited_urls,
          trace := s.trace ++ [url] }) := by
  constructor
  · simp only [explore]
    split_ifs <;> simp [herr]
  · intro hq hd hv
    simp only [explore]
    rw [if_neg hq, if_neg hd, if_neg hv]
    simp [herr]

/-- C7 witness: a concrete failing fetch leaves the files empty and
returns the state with only the visited mark and the trace entry. -/
theorem C7_fetch_error_isolated_witness :
    (explore psFail 5 5 { file_urls := [], visited_urls := [], trace := [] }
      "r" 0).file_urls = [] ∧
    explore psFail 5 5 { file_urls := [], visited_urls := [], trace := [] } "r" 0 =
      { file_urls := [], visited_urls := ["r"], trace := ["r"] } :=
  ⟨(C7_fetch_error_isolated psFail 5 4
      { file_urls := [], visited_urls := [], trace := [] } "r" 0
      FetchError.fetchError rfl).1,
   (C7_fetch_error_isolated psFail 5 4
      { file_urls := [], visited_urls := [], trace := [] } "r" 0
      FetchError.fetchError rfl).2 (by decide) (by decide) (by decide)⟩
